import Mathlib

/-!
Verification development for the `datautils` table-ingestion module:
composite-table readers (file-based and in-memory-text), first-row type
sniffing, column materialization, sub-list expansion, and the two
DataFrame wrapper classes (`ListDataFrame`, `ArrayDataFrame`).

Modelling conventions:
* Python floats are modelled as rationals (the claims only involve exactly
  representable decimal values); `float(...)` / NumPy string-to-float parsing
  is modelled by a single decimal parser `pyFloat?`.
* A file is modelled by its list of lines (without trailing newlines); the
  newline is re-attached where the source manipulates a raw `readline` result.
* Python exceptions are modelled by `Except PyErr` results (or by explicit
  result constructors where the claim distinguishes printed errors from
  raised exceptions).
* The dynamic attribute view (`obj.colname`) of the DataFrame classes is not
  modelled; the claims only concern the name dictionary (`obj["colname"]`)
  and the visible name list.
* The `delimiter` argument is modelled as `Option String` exactly as in the
  source (`None` = any whitespace run).
-/

/-- Python exception kinds raised by the modelled code. -/
inductive PyErr where
  | typeError (msg : String)
  | indexError
  | keyError (msg : String)
  | valueError
deriving DecidableEq, Repr

/-- Error message `error1` from the source (bad container type). -/
def error1 : String :=
  "Input to ListDataFrame should be a list of lists or list of numpy arrays"

/-- Error message `error2` from the source (column length mismatch). -/
def error2 : String :=
  "Input column is not the same length as existing columns in ListDataFrame"

/-- A materialized table column: an `Int64` array, a `Float64` array, a list
of numeric sub-arrays (one per sub-list slot), or a raw string list. -/
inductive Column where
  | ints (xs : List Int)
  | floats (xs : List ℚ)
  | subs (xss : List (List ℚ))
  | strs (ss : List String)
deriving DecidableEq, Repr

/-- Python `len` of a column object. For a sub-list column (a Python list of
`n` NumPy arrays) this is the number of sub-arrays, not the row count. -/
def Column.pyLen : Column → Nat
  | .ints xs => xs.length
  | .floats xs => xs.length
  | .subs xss => xss.length
  | .strs ss => ss.length

/-- An element of a `ListDataFrame`'s backing list: either a list/NumPy-array
object (a column) or some other Python object (only the first element's kind
is ever checked by the constructor). -/
inductive Cell where
  | seq (c : Column)
  | other
deriving DecidableEq, Repr

/-- The per-column tag assigned by the first-row type sniffer. -/
inductive ColTag where
  | tInt
  | tFloat
  | tSub (n : Nat)
  | tVerbatim
deriving DecidableEq, Repr

/-- Whether a tag is a sub-list tag. -/
def ColTag.isSub : ColTag → Bool
  | .tSub _ => true
  | _ => false

/-- The sub-list length carried by a `tSub` tag (0 otherwise). -/
def ColTag.subLen : ColTag → Nat
  | .tSub n => n
  | _ => 0

/-! ### String utilities (structural models of the Python `str` methods) -/

/-- Drop the characters of `cs` that occur in `set` from the front. -/
def dropCharsLeft (set : List Char) (cs : List Char) : List Char :=
  cs.dropWhile (fun c => set.contains c)

/-- Python `s.strip(chars)`: remove characters in `set` from both ends. -/
def stripChars (set : List Char) (s : String) : String :=
  String.mk ((dropCharsLeft set ((dropCharsLeft set s.toList.reverse).reverse)))

/-- Whitespace characters recognised by Python `str.strip()` / `str.split()`. -/
def pyWhitespace : List Char :=
  [' ', '\t', '\n', '\r', '\x0b', '\x0c']

/-- Python `s.strip()`: remove whitespace from both ends. -/
def pyStrip (s : String) : String :=
  stripChars pyWhitespace s

/-- Python `s.rstrip()`: remove trailing whitespace. -/
def pyRstrip (s : String) : String :=
  String.mk (s.toList.reverse.dropWhile (fun c => pyWhitespace.contains c)).reverse

/-- Auxiliary for whitespace splitting: `acc` is the current word, reversed. -/
def splitWSAux : List Char → List Char → List (List Char)
  | [], acc => if acc.isEmpty then [] else [acc.reverse]
  | c :: rest, acc =>
    if pyWhitespace.contains c then
      if acc.isEmpty then splitWSAux rest []
      else acc.reverse :: splitWSAux rest []
    else splitWSAux rest (c :: acc)

/-- Python `s.split()` (no argument): split on whitespace runs, dropping
empty fields. -/
def pySplitWS (s : String) : List String :=
  (splitWSAux s.toList []).map String.mk

/-- Does `pre` occur as a prefix of `cs`? -/
def startsWithList : List Char → List Char → Bool
  | [], _ => true
  | _ :: _, [] => false
  | a :: as, b :: bs => a = b && startsWithList as bs

/-- Auxiliary for separator splitting, fuelled for structural recursion
(`fuel` is at least the length of the text, so exhaustion is unreachable). -/
def splitSepAux (sep : List Char) : Nat → List Char → List Char → List (List Char)
  | _, [], acc => [acc.reverse]
  | 0, cs, acc => [acc.reverse ++ cs]
  | fuel + 1, c :: rest, acc =>
    if startsWithList sep (c :: rest) then
      acc.reverse :: splitSepAux sep fuel ((c :: rest).drop sep.length) []
    else
      splitSepAux sep fuel rest (c :: acc)

/-- Python `s.split(sep)` for a non-empty separator string. -/
def pySplitSep (sep : String) (s : String) : List String :=
  (splitSepAux sep.toList s.toList.length s.toList []).map String.mk

/-- Tokenize a line by the configured delimiter: `none` is Python
`str.split()` (whitespace runs), `some d` is Python `str.split(d)`. -/
def splitDelim (delim : Option String) (s : String) : List String :=
  match delim with
  | none => pySplitWS s
  | some d => pySplitSep d s

/-! ### Numeric parsing -/

/-- The numeric value of a decimal digit string (digits assumed checked). -/
def digitsToNat (cs : List Char) : Nat :=
  cs.foldl (fun a c => 10 * a + (c.toNat - 48)) 0

/-- Model of Python `float(s)` (and of NumPy string-to-Float64 conversion)
restricted to finite decimal notation: optional surrounding whitespace,
optional sign, decimal digits with an optional point, optional exponent.
Special values (`inf`, `nan`) and digit underscores are not modelled. -/
def pyFloat? (s : String) : Option ℚ :=
  let t := (pyStrip s).toList
  let sgnRest : ℚ × List Char :=
    match t with
    | '+' :: r => (1, r)
    | '-' :: r => (-1, r)
    | _ => (1, t)
  let sgn := sgnRest.1
  let mantExp := sgnRest.2.span (fun c => !(c = 'e' || c = 'E'))
  let ipFp := mantExp.1.span (fun c => !(c = '.'))
  let ip := ipFp.1
  let fp := match ipFp.2 with
    | [] => []
    | _ :: r => r
  if !(ip.all Char.isDigit) || !(fp.all Char.isDigit) || (ip.isEmpty && fp.isEmpty) then
    none
  else
    let base : ℚ := (digitsToNat ip : ℚ) + (digitsToNat fp : ℚ) / (10 : ℚ) ^ fp.length
    match mantExp.2 with
    | [] => some (sgn * base)
    | _ :: ecs =>
      let esgnRest : Bool × List Char :=
        match ecs with
        | '+' :: r => (false, r)
        | '-' :: r => (true, r)
        | _ => (false, ecs)
      if esgnRest.2.isEmpty || !(esgnRest.2.all Char.isDigit) then none
      else
        let e := digitsToNat esgnRest.2
        some (sgn * base * (if esgnRest.1 then ((10 : ℚ) ^ e)⁻¹ else (10 : ℚ) ^ e))

/-- Model of NumPy string-to-Int64 conversion (and Python `int(s)`):
optional surrounding whitespace, optional sign, non-empty digit run. -/
def pyInt? (s : String) : Option Int :=
  let t := (pyStrip s).toList
  let sgnRest : Bool × List Char :=
    match t with
    | '+' :: r => (false, r)
    | '-' :: r => (true, r)
    | _ => (false, t)
  if sgnRest.2.isEmpty || !(sgnRest.2.all Char.isDigit) then none
  else
    let v : Int := digitsToNat sgnRest.2
    some (if sgnRest.1 then -v else v)

example : pyFloat? "2.5" = some (5 / 2 : ℚ) := by with_unfolding_all decide
example : pyFloat? "1" = some 1 := by with_unfolding_all decide
example : pyFloat? " -3.25 " = some (-(13 / 4) : ℚ) := by with_unfolding_all decide
example : pyFloat? "1e2" = some 100 := by with_unfolding_all decide
example : pyFloat? "\x7b3,4,5\x7d" = none := by with_unfolding_all decide
example : pyFloat? "x" = none := by with_unfolding_all decide
example : pyFloat? "" = none := by with_unfolding_all decide
example : pyInt? "-12" = some (-12) := by decide
example : pyInt? "2.5" = none := by decide
example : pySplitWS "1 2.5  \x7b3,4,5\x7d" = ["1", "2.5", "\x7b3,4,5\x7d"] := by decide
example : pySplitSep "," "\x7b3,4,5\x7d" = ["\x7b3", "4", "5\x7d"] := by decide
example : pySplitSep "," "" = [""] := by decide
example : pyStrip "  a b " = "a b" := by decide
example : stripChars ['#'] "## a b c" = " a b c" := by decide

deriving instance DecidableEq for Except

/-! ### Line classification and header extraction -/

/-- Keep a line exactly when it is non-blank and its first character is not in
the skip-marker set (the filter in both readers' data-line comprehension). -/
def keepLine (skip : String) (line : String) : Bool :=
  !(pyStrip line).isEmpty && !(skip.toList.contains (line.toList.headD ' '))

/-- The filtered, right-stripped data lines (`dlines` in the source). -/
def dataLines (skip : String) (lines : List String) : List String :=
  (lines.filter (fun l => keepLine skip l)).map pyRstrip

/-- Header names in the in-memory-text reader: the original (unfiltered) line
at the designated index, stripped of the configured skip characters on both
ends, split by the delimiter, each field trimmed. -/
def headerNamesText (skip : String) (delim : Option String) (line : String) : List String :=
  (splitDelim delim (stripChars skip.toList line)).map pyStrip

/-- Header names in the file-based reader: the raw line as `readline` returns
it (with a trailing newline), stripped of the literal character `#` on both
ends regardless of the configured skip set, split by the delimiter, each
field trimmed. -/
def headerNamesFile (delim : Option String) (line : String) : List String :=
  (splitDelim delim (stripChars ['#'] (line ++ "\n"))).map pyStrip

/-! ### First-row type sniffer -/

/-- The tag the sniffing loop assigns to column `i` whose row-0 value is `v`:
explicitly designated integer columns are tagged `tInt`; designated
do-not-convert columns are tagged `tVerbatim`; otherwise a successful float
parse of the row-0 value tags `tFloat`; on parse failure, if sub-list
conversion is enabled and the value contains a brace the column is tagged
`tSub n` with `n` the number of comma-separated pieces of the whole value;
otherwise the column is tagged `tVerbatim` (the source records this by
appending `i` to `noConvert`). -/
def sniffTag (convertSubLists : Bool) (intCols noConvert : List Nat) (i : Nat) (v : String) : ColTag :=
  if intCols.contains i then ColTag.tInt
  else if noConvert.contains i then ColTag.tVerbatim
  else
    match pyFloat? v with
    | some _ => ColTag.tFloat
    | none =>
      if convertSubLists && v.toList.contains '\x7b' then
        ColTag.tSub (pySplitSep "," v).length
      else ColTag.tVerbatim

/-! ### Column materialization -/

/-- `ColumnToFloats` from the source: first try to convert the whole column
(`np.array(inputList, "Float64")` succeeds exactly when every entry parses);
on failure fall back to per-element parsing, substituting `blankValue` for
each entry that fails to parse. -/
def ColumnToFloats (inputList : List String) (blankValue : ℚ) : List ℚ :=
  match inputList.mapM pyFloat? with
  | some floatList => floatList
  | none => inputList.map (fun s => (pyFloat? s).getD blankValue)

/-- NumPy `Int64` conversion of a string column: every entry must parse as an
integer; any failure raises (no fallback). -/
def intifyColumn (col : List String) : Except PyErr (List Int) :=
  match col.mapM pyInt? with
  | none => Except.error PyErr.valueError
  | some xs => Except.ok xs

/-- Parse one bracketed chunk inside `ExtractSubLists`: trim it, strip brace
characters from both ends (first the open brace, then the close brace), split
on commas, and float-parse the first `n` pieces. A missing piece raises an
index error; a failed float parse raises a value error. -/
def parseSubChunk (n : Nat) (textChunk : String) : Except PyErr (List ℚ) :=
  let bareText := stripChars ['\x7d'] (stripChars ['\x7b'] (pyStrip textChunk))
  let pp := pySplitSep "," bareText
  (List.range n).mapM (fun i =>
    match pp.get? i with
    | none => Except.error PyErr.indexError
    | some s =>
      match pyFloat? s with
      | none => Except.error PyErr.valueError
      | some q => Except.ok q)

/-- `ExtractSubLists` from the source: given a column of bracketed chunks,
return `nSubLists` parallel numeric arrays, the `i`-th holding piece `i` of
every row's chunk. -/
def ExtractSubLists (textList : List String) (nSubLists : Nat) : Except PyErr (List (List ℚ)) := do
  let rows ← textList.mapM (parseSubChunk nSubLists)
  pure ((List.range nSubLists).map (fun i => rows.map (fun r => r.getD i 0)))

/-- Dispatch of the non-expansion materialization loop, by sniffed tag:
integer columns to `Int64` arrays, sub-list columns to lists of numeric
arrays, float columns through `ColumnToFloats`, verbatim columns untouched. -/
def materializeColumn (tag : ColTag) (blankVal : ℚ) (col : List String) : Except PyErr Column :=
  match tag with
  | ColTag.tInt => (intifyColumn col).map Column.ints
  | ColTag.tSub n => (ExtractSubLists col n).map Column.subs
  | ColTag.tFloat => Except.ok (Column.floats (ColumnToFloats col blankVal))
  | ColTag.tVerbatim => Except.ok (Column.strs col)

/-! ### List splice (`InsertAndReplace`) -/

/-- The in-range effect of `InsertAndReplace`: `del theList[ii]` followed by
inserting the new items at position `ii` in order replaces element `ii` by
the elements of `newItems`. -/
def spliceAt {α : Type} (theList : List α) (ii : Nat) (newItems : List α) : List α :=
  theList.take ii ++ newItems ++ theList.drop (ii + 1)

/-- Outcome of a call to `InsertAndReplace`: a normal return with the mutated
list, a normal return with the unchanged list after printing an error
message, or a raised `IndexError`. -/
inductive IAResult (α : Type) where
  | ok (l : List α)
  | errReturn (l : List α)
  | exn
deriving DecidableEq, Repr

/-- `InsertAndReplace` from the source: indices below 0 or above the length
print an error message and return with the list unchanged; the index equal to
the length passes the guard but `del theList[ii]` then raises `IndexError`;
in-range indices splice the new items in place of element `ii`. -/
def InsertAndReplace {α : Type} (theList : List α) (ii : Int) (newItems : List α) : IAResult α :=
  if ii < 0 ∨ (theList.length : Int) < ii then IAResult.errReturn theList
  else if ii = (theList.length : Int) then IAResult.exn
  else IAResult.ok (spliceAt theList ii.toNat newItems)

/-! ### Sub-list expansion -/

/-- An entry of the evolving `dataList` during the expansion loop: either a
still-raw column (a Python list of strings) or an already materialized
column. A never-converted entry is, as a Python object, exactly a list of
strings, so `finalizeWorkCol` renders it as a verbatim column. -/
inductive WorkCol where
  | raw (col : List String)
  | done (c : Column)
deriving DecidableEq, Repr

/-- The raw string column held by a work entry (unused for processed
entries, which the loop never reads back). -/
def getRawCol : WorkCol → List String
  | WorkCol.raw l => l
  | WorkCol.done _ => []

/-- Render a final `dataList` entry as a column. -/
def finalizeWorkCol : WorkCol → Column
  | WorkCol.done c => c
  | WorkCol.raw l => Column.strs l

/-- What one original column contributes to the expanded column sequence:
integer and float columns one materialized column, a sub-list column its `n`
numeric arrays as separate float columns, and a verbatim column itself,
untouched. -/
def expandGroup (tag : ColTag) (blankVal : ℚ) (col : List String) : Except PyErr (List WorkCol) :=
  match tag with
  | ColTag.tInt => (intifyColumn col).map (fun xs => [WorkCol.done (Column.ints xs)])
  | ColTag.tSub n =>
    (ExtractSubLists col n).map (fun subs => subs.map (fun l => WorkCol.done (Column.floats l)))
  | ColTag.tFloat => Except.ok [WorkCol.done (Column.floats (ColumnToFloats col blankVal))]
  | ColTag.tVerbatim => Except.ok [WorkCol.raw col]

/-- One iteration of the expansion loop at original column `iOrig`: the
current position is `iOrig` plus the running added-column count; the entry
there is replaced in place by its group (in-place assignment for one-column
groups, `InsertAndReplace` for sub-list groups, no change for verbatim
columns), and the added-column count grows by the group size minus one. -/
def expandStep (tagOf : Nat → ColTag) (blankVal : ℚ) (st : List WorkCol × Nat) (iOrig : Nat) :
    Except PyErr (List WorkCol × Nat) :=
  let ii := iOrig + st.2
  let col := getRawCol (st.1.getD ii (WorkCol.raw []))
  (expandGroup (tagOf iOrig) blankVal col).map
    (fun g => (spliceAt st.1 ii g, st.2 + g.length - 1))

/-- The expansion loop `for i_orig in range(nInputCols)` over the index
list, threading the `(dataList, nAddedCols)` state. -/
def runExpand (tagOf : Nat → ColTag) (blankVal : ℚ) :
    List Nat → List WorkCol × Nat → Except PyErr (List WorkCol × Nat)
  | [], st => Except.ok st
  | i :: is, st =>
    match expandStep tagOf blankVal st i with
    | Except.error e => Except.error e
    | Except.ok st2 => runExpand tagOf blankVal is st2

/-- Declarative description of sub-list expansion, following the spec: each
original column, in ascending original-column order, is replaced in place by
the group of columns it contributes, preserving the relative order of the
sub-arrays and of all other columns. -/
def expandColumnsSpec (tagOf : Nat → ColTag) (blankVal : ℚ) :
    Nat → List (List String) → Except PyErr (List WorkCol)
  | _, [] => Except.ok []
  | k, col :: rest =>
    match expandGroup (tagOf k) blankVal col with
    | Except.error e => Except.error e
    | Except.ok g =>
      match expandColumnsSpec tagOf blankVal (k + 1) rest with
      | Except.error e => Except.error e
      | Except.ok gs => Except.ok (g ++ gs)

/-! ### Header-name rewriting for expanded sub-lists -/

/-- `AddExtraColumnNames` from the source: for each sub-list column (in
ascending original-column order), synthesize one name per sub-array — the
original name suffixed with the caller-supplied suffixes when exactly the
right number is given, else with `0..n-1` — and splice them in place of the
original name, located by value search in the evolving name list. -/
def AddExtraColumnNames (columnNames : List String) (subListColumns subListLengths : List Nat)
    (subListSuffixes : Option (List String)) : Except PyErr (List String) := do
  let oldColNames ← subListColumns.mapM (fun i =>
    match columnNames.get? i with
    | some nm => Except.ok nm
    | none => Except.error PyErr.indexError)
  (List.range subListColumns.length).foldlM (fun names i => do
      let baseName := oldColNames.getD i ""
      let nSubLists ←
        match subListLengths.get? i with
        | some n => Except.ok n
        | none => Except.error PyErr.indexError
      let suffixes : List String :=
        match subListSuffixes with
        | some ss => if ss.length ≠ nSubLists then (List.range nSubLists).map toString else ss
        | none => (List.range nSubLists).map toString
      let newNames := (List.range nSubLists).map (fun k => baseName ++ "_" ++ suffixes.getD k "")
      match names.findIdx? (fun s => s == baseName) with
      | some insertLoc => Except.ok (spliceAt names insertLoc newNames)
      | none => Except.error PyErr.valueError)
    columnNames

/-! ### The composite-table readers -/

/-- The result of a composite-table reader: the materialized columns and the
(optional) header names. The `dataFrame` flag of the source only chooses
whether this pair is additionally wrapped in a `ListDataFrame`. -/
structure ReadResult where
  cols : List Column
  names : Option (List String)
deriving DecidableEq, Repr

/-- The header-name finalization step shared by both readers: when expansion
is on and sub-lists were found and header names exist, rewrite the names
through `AddExtraColumnNames`; otherwise pass them through unchanged. -/
def coreNames (expandSubLists : Bool) (subListCols subListLengthList : List Nat)
    (subListSuffixes : Option (List String)) (colNames0 : Option (List String)) :
    Except PyErr (Option (List String)) :=
  match colNames0 with
  | some ns =>
    if expandSubLists && !subListCols.isEmpty then
      (AddExtraColumnNames ns subListCols subListLengthList subListSuffixes).map some
    else Except.ok (some ns)
  | none => Except.ok none

/-- The shared body of the two readers, starting from the filtered data lines
and the already-extracted header names: first-row sniffing, per-column raw
string collection, materialization (with or without sub-list expansion), and
header-name rewriting when sub-lists were found and expanded. -/
def readCompositeCore (delim : Option String) (noConvert intCols : List Nat)
    (blankVal : ℚ) (convertSL expandSubLists : Bool)
    (subListSuffixes : Option (List String))
    (dlines : List String) (colNames0 : Option (List String)) :
    Except PyErr ReadResult :=
  match dlines with
  | [] => Except.error PyErr.indexError
  | d0 :: _ =>
    let pp := splitDelim delim d0
    let nInputCols := pp.length
    let tagOf : Nat → ColTag := fun i => sniffTag convertSL intCols noConvert i (pp.getD i "")
    let subListCols := (List.range nInputCols).filter (fun i => (tagOf i).isSub)
    let subListLengthList := subListCols.map (fun i => (tagOf i).subLen)
    do
      let rows ← dlines.mapM (fun l =>
        let ps := splitDelim delim l
        (List.range nInputCols).mapM (fun i =>
          match ps.get? i with
          | none => Except.error PyErr.indexError
          | some s => Except.ok s))
      let rawCols := (List.range nInputCols).map (fun i => rows.map (fun r => r.getD i ""))
      let cols ←
        if expandSubLists then
          (runExpand tagOf blankVal (List.range nInputCols) (rawCols.map WorkCol.raw, 0)).map
            (fun st => st.1.map finalizeWorkCol)
        else
          (List.range nInputCols).mapM
            (fun i => materializeColumn (tagOf i) blankVal (rawCols.getD i []))
      let names ← coreNames expandSubLists subListCols subListLengthList subListSuffixes
        colNames0
      pure ⟨cols, names⟩

/-- `ReadCompositeTableFromText` from the source. The header row index counts
against the original `textLines` sequence and the header line is read from it
directly, independently of the data-line filtering, stripped of the
configured skip characters. Requesting expansion forces sub-list conversion
on. -/
def ReadCompositeTableFromText (textLines : List String) (skip : String)
    (delim : Option String) (noConvert intCols : List Nat) (blankVal : ℚ)
    (convertSubLists expandSubLists : Bool) (columnRow : Option Nat)
    (subListSuffixes : Option (List String)) : Except PyErr ReadResult :=
  let convertSL := convertSubLists || expandSubLists
  let nAllRows := textLines.length
  let dlines := dataLines skip textLines
  let colNames0 : Option (List String) :=
    match columnRow with
    | some r =>
      if r < nAllRows then some (headerNamesText skip delim (textLines.getD r ""))
      else none
    | none => none
  readCompositeCore delim noConvert intCols blankVal convertSL expandSubLists subListSuffixes
    dlines colNames0

/-- `ReadCompositeTable` from the source, with the file modelled by its list
of lines. Identical to the in-memory-text reader except for the header line:
it is re-read from the file (so it carries its trailing newline) and stripped
of the literal character `#`, not of the configured skip set. -/
def ReadCompositeTable (fileLines : List String) (skip : String)
    (delim : Option String) (noConvert intCols : List Nat) (blankVal : ℚ)
    (convertSubLists expandSubLists : Bool) (columnRow : Option Nat)
    (subListSuffixes : Option (List String)) : Except PyErr ReadResult :=
  let convertSL := convertSubLists || expandSubLists
  let nAllRows := fileLines.length
  let dlines := dataLines skip fileLines
  let colNames0 : Option (List String) :=
    match columnRow with
    | some r =>
      if r < nAllRows then some (headerNamesFile delim (fileLines.getD r ""))
      else none
    | none => none
  readCompositeCore delim noConvert intCols blankVal convertSL expandSubLists subListSuffixes
    dlines colNames0


/-! ### DataFrame wrappers -/

/-- The empty name dictionary. -/
def emptyDict {γ : Type} : String → Option γ := fun _ => none

/-- The positional name-binding loop shared by `SetColumns`/`SetAltColumns`
of both DataFrame classes: for each column index `i` below the column count,
bind name `i` (when the name list has one) to column `i`, a later binding of
the same name overwriting an earlier one; missing trailing names are skipped
through the index-error guard. -/
def bindCols {γ : Type} (d0 : String → Option γ) (colAt : Nat → γ) (nCols : Nat)
    (names : List String) : String → Option γ :=
  (List.range nCols).foldl (fun d i =>
    match names[i]? with
    | none => d
    | some nm => fun k => if k = nm then some (colAt i) else d k) d0

/-- The new name list built by `ChangeColumnName`: inserting the new name at
the first index of the old name and then removing the first occurrence of
the old name replaces that occurrence in place. -/
def renameFirst : List String → String → String → List String
  | [], _, _ => []
  | a :: as, oldName, newName =>
    if a = oldName then newName :: as
    else a :: renameFirst as oldName newName

/-- `ListDataFrame`: backing list of cells, visible name list, and name
dictionary (the attribute view is not modelled). -/
structure ListDataFrame where
  data : List Cell
  colNames : Option (List String)
  dict : String → Option Cell

/-- The column object at index `i` of a list-backed frame. -/
def ListDataFrame.colAt (df : ListDataFrame) (i : Nat) : Cell :=
  df.data.getD i Cell.other

/-- `ListDataFrame.SetColumns`: rebuild the dictionary from scratch from the
given names (previous definitions are erased first) and store the names as
the visible name list. -/
def ListDataFrame.SetColumns (df : ListDataFrame) (columnNames : List String) : ListDataFrame :=
  { df with colNames := some columnNames,
            dict := bindCols emptyDict df.colAt df.data.length columnNames }

/-- `ListDataFrame.SetAltColumns`: add the positional bindings for the given
names on top of the existing dictionary; the visible name list is not
touched. -/
def ListDataFrame.SetAltColumns (df : ListDataFrame) (columnNames : List String) : ListDataFrame :=
  { df with dict := bindCols df.dict df.colAt df.data.length columnNames }

/-- `ListDataFrame.ChangeColumnName`: when the old name is in the visible
name list, replace its first occurrence in place by the new name and re-run
the full name binding; otherwise raise a `KeyError`. A frame without a name
list raises a `TypeError` from the membership test on `None`. -/
def ListDataFrame.ChangeColumnName (df : ListDataFrame) (oldName newName : String) :
    Except PyErr ListDataFrame :=
  match df.colNames with
  | none => Except.error (PyErr.typeError "argument of type NoneType is not iterable")
  | some ns =>
    if ns.contains oldName then
      Except.ok (df.SetColumns (renameFirst ns oldName newName))
    else
      Except.error (PyErr.keyError ("Column name \"" ++ oldName ++ "\" does not exist."))

/-- `ListDataFrame.AddNewColumn`: the argument must be a list or NumPy array
(else `TypeError` with `error1`) of the same length as the existing columns
(else `TypeError` with `error2`); both checks precede the append, so an
erroring call returns the frame unchanged. On success the column is
appended and, when a name is supplied and names already exist, the full name
binding is re-run with the new name appended. -/
def ListDataFrame.AddNewColumn (df : ListDataFrame) (dataColumn : Cell)
    (columnName : Option String) : ListDataFrame × Option PyErr :=
  match dataColumn with
  | Cell.other => (df, some (PyErr.typeError error1))
  | Cell.seq c =>
    match df.data with
    | [] => (df, some PyErr.indexError)
    | d0 :: _ =>
      match d0 with
      | Cell.other => (df, some (PyErr.typeError "object of type NoneType has no len()"))
      | Cell.seq c0 =>
        if c.pyLen ≠ c0.pyLen then (df, some (PyErr.typeError error2))
        else
          let df2 : ListDataFrame := { df with data := df.data ++ [Cell.seq c] }
          match columnName, df.colNames with
          | some nm, some ns => (df2.SetColumns (ns ++ [nm]), none)
          | _, _ => (df2, none)

/-- The argument passed to the `ListDataFrame` constructor: a Python list of
cells, or an object that is not a list at all. -/
inductive InitArg where
  | isList (ds : List Cell)
  | notList
deriving DecidableEq

/-- The `ListDataFrame` constructor: a non-list argument raises the
input-shape `TypeError`; the unguarded access to element 0 of an empty list
raises an `IndexError` before that check can run; a first element that is
neither a list nor a NumPy array raises the input-shape `TypeError`;
otherwise the frame is built and, when names are supplied, the full name
binding runs. -/
def ListDataFrame.init (arg : InitArg) (columnNames : Option (List String)) :
    Except PyErr ListDataFrame :=
  match arg with
  | InitArg.notList => Except.error (PyErr.typeError error1)
  | InitArg.isList ds =>
    match ds with
    | [] => Except.error PyErr.indexError
    | d0 :: _ =>
      match d0 with
      | Cell.other => Except.error (PyErr.typeError error1)
      | Cell.seq _ =>
        let base : ListDataFrame := ⟨ds, columnNames, emptyDict⟩
        match columnNames with
        | some ns => Except.ok (base.SetColumns ns)
        | none => Except.ok base

/-- `ArrayDataFrame`: a 2-D float array stored as its list of rows, the
column count from the array shape, the visible name list, and the name
dictionary. -/
structure ArrayDataFrame where
  data : List (List ℚ)
  nCols : Nat
  colNames : Option (List String)
  dict : String → Option (List ℚ)

/-- The column slice `data[:,i]` of an array-backed frame. -/
def ArrayDataFrame.colAt (df : ArrayDataFrame) (i : Nat) : List ℚ :=
  df.data.map (fun row => row.getD i 0)

/-- `ArrayDataFrame.SetColumns`: rebuild the dictionary from scratch from
the given names. Unlike the list-backed variant, the source never assigns
`self.colNames` here, so the visible name list is left unchanged. -/
def ArrayDataFrame.SetColumns (df : ArrayDataFrame) (columnNames : List String) : ArrayDataFrame :=
  { df with dict := bindCols emptyDict df.colAt df.nCols columnNames }

/-- `ArrayDataFrame.SetAltColumns`: add the positional bindings for the
given names on top of the existing dictionary. -/
def ArrayDataFrame.SetAltColumns (df : ArrayDataFrame) (columnNames : List String) : ArrayDataFrame :=
  { df with dict := bindCols df.dict df.colAt df.nCols columnNames }

/-- `ArrayDataFrame.ChangeColumnName`: same logic as the list-backed
variant; note that the rebuilt name list is only passed to `SetColumns`,
which does not store it, so the visible name list keeps the old name. -/
def ArrayDataFrame.ChangeColumnName (df : ArrayDataFrame) (oldName newName : String) :
    Except PyErr ArrayDataFrame :=
  match df.colNames with
  | none => Except.error (PyErr.typeError "argument of type NoneType is not iterable")
  | some ns =>
    if ns.contains oldName then
      Except.ok (df.SetColumns (renameFirst ns oldName newName))
    else
      Except.error (PyErr.keyError ("Column name \"" ++ oldName ++ "\" does not exist."))

/-! ### Helper lemmas -/

/-- A successful whole-list `Option` traversal agrees with the element-wise
application everywhere (and preserves length). -/
lemma mapM_option_some {α β : Type} (f : α → Option β) :
    ∀ (l : List α) (r : List β), l.mapM f = some r →
      r.length = l.length ∧ ∀ j : Nat, r[j]? = (l[j]?).bind f := by
  intro l
  induction l with
  | nil =>
    intro r h
    simp only [List.mapM_nil, pure, Option.some.injEq] at h
    subst h
    simp
  | cons a as ih =>
    intro r h
    rw [List.mapM_cons] at h
    cases hfa : f a with
    | none => rw [hfa] at h; simp at h
    | some b =>
      rw [hfa] at h
      cases hrest : as.mapM f with
      | none => rw [hrest] at h; simp at h
      | some bs =>
        rw [hrest] at h
        simp at h
        subst h
        obtain ⟨ihl, ihg⟩ := ih bs hrest
        refine ⟨by simp [ihl], ?_⟩
        intro j
        cases j with
        | zero => simp [hfa]
        | succ j2 => simpa using ihg j2

/-! ### C10: InsertAndReplace -/

/-- C10: for `0 ≤ ii < len(L)`, `InsertAndReplace` returns normally with the
list mutated into `L[:ii] ++ newItems ++ L[ii+1:]`; for `ii < 0` or
`ii > len(L)` it raises no exception and leaves the list unchanged, only
printing an error message. -/
theorem InsertAndReplace_c10 {α : Type} (theList : List α) (ii : Int) (newItems : List α) :
    (0 ≤ ii → ii < (theList.length : Int) →
      InsertAndReplace theList ii newItems =
        IAResult.ok (theList.take ii.toNat ++ newItems ++ theList.drop (ii.toNat + 1))) ∧
    ((ii < 0 ∨ (theList.length : Int) < ii) →
      InsertAndReplace theList ii newItems = IAResult.errReturn theList) := by
  constructor
  · intro h0 hlt
    have h1 : ¬(ii < 0 ∨ (theList.length : Int) < ii) := by omega
    have h2 : ¬(ii = (theList.length : Int)) := by omega
    simp only [InsertAndReplace, if_neg h1, if_neg h2, spliceAt]
  · intro h
    simp only [InsertAndReplace, if_pos h]

/-- Witness for C10 at concrete inputs: one in-range splice and one
out-of-range unchanged return. -/
theorem InsertAndReplace_c10_witness :
    InsertAndReplace [10, 20, 30] 1 [7, 8] = IAResult.ok [10, 7, 8, 30] ∧
    InsertAndReplace [10, 20, 30] (-1) [7] = IAResult.errReturn [10, 20, 30] := by
  constructor
  · exact ((InsertAndReplace_c10 [10, 20, 30] 1 [7, 8]).1 (by decide) (by decide)).trans (by decide)
  · exact (InsertAndReplace_c10 [10, 20, 30] (-1) [7]).2 (by decide)

/-! ### C4: ColumnToFloats -/

/-- C4: the materialized float column has the input's length and holds, at
every position, the parsed float value of the entry there, with the blank
value substituted exactly at the positions whose entry fails to parse; when
every entry parses this coincides with the successful whole-column parse. -/
theorem ColumnToFloats_c4 (inputList : List String) (blankValue : ℚ) :
    (ColumnToFloats inputList blankValue).length = inputList.length ∧
    ∀ j : Nat, (ColumnToFloats inputList blankValue)[j]? =
      (inputList[j]?).map (fun s => (pyFloat? s).getD blankValue) := by
  cases h : inputList.mapM pyFloat? with
  | none =>
    have hcf : ColumnToFloats inputList blankValue =
        inputList.map (fun s => (pyFloat? s).getD blankValue) := by
      unfold ColumnToFloats
      rw [h]
    constructor
    · rw [hcf]
      simp
    · intro j
      rw [hcf]
      simp
  | some r =>
    have hcf : ColumnToFloats inputList blankValue = r := by
      unfold ColumnToFloats
      rw [h]
    obtain ⟨hl, hg⟩ := mapM_option_some pyFloat? inputList r h
    rw [hcf]
    refine ⟨hl, ?_⟩
    intro j
    have hgj := hg j
    by_cases hj : j < inputList.length
    · cases hlj : inputList[j]? with
      | none =>
        exact absurd (List.getElem?_eq_none_iff.mp hlj) (by omega)
      | some s =>
        rw [hlj] at hgj
        simp only [Option.some_bind] at hgj
        cases hfs : pyFloat? s with
        | none =>
          rw [hfs] at hgj
          have hjr : j < r.length := by omega
          have h3 := List.getElem?_eq_getElem hjr
          rw [hgj] at h3
          exact absurd h3 (by simp)
        | some q =>
          rw [hfs] at hgj
          rw [hgj]
          simp [hfs]
    · have h1 : inputList[j]? = none := List.getElem?_eq_none_iff.mpr (by omega)
      have h2 : r[j]? = none := List.getElem?_eq_none_iff.mpr (by omega)
      rw [h1, h2]
      rfl

/-! ### C3: the first-row type sniffer -/

/-- The sub-list size as the claim words it: one more than the number of
commas strictly inside the braces (between the first opening brace and the
next closing brace). -/
def specSubListSize (v : String) : Nat :=
  (((v.toList.dropWhile (fun c => !(c = '\x7b'))).drop 1).takeWhile
    (fun c => !(c = '\x7d'))).count ',' + 1

/-- Counterexample to C3 as stated: for the row-0 value `x,{1}` (float parse
fails, brace present) the code tags `SubList(2)` — one more than the commas
of the whole field — while one more than the comma count inside the braces
is 1. -/
theorem sniffTag_c3_counterexample :
    sniffTag true [] [] 0 "x,\x7b1\x7d" = ColTag.tSub 2 ∧
    specSubListSize "x,\x7b1\x7d" = 1 ∧ (2 : Nat) ≠ 1 := by
  with_unfolding_all decide

/-- C3 (amended): for a column neither designated integer nor do-not-convert,
the sniffer inspects only the row-0 value: a successful float parse tags
`Float`; on parse failure with sub-list conversion enabled and a brace in the
value it tags `SubList(n)` with `n` the number of comma-separated pieces of
the whole field value (comma count of the whole value plus one); otherwise it
tags `Verbatim` and the later materialization stage leaves such a column as
its raw string sequence. -/
theorem sniffTag_c3_amended (convertSubLists : Bool) (intCols noConvert : List Nat) (i : Nat)
    (v : String) (blankVal : ℚ) (col : List String)
    (hInt : i ∉ intCols) (hNc : i ∉ noConvert) :
    ((pyFloat? v).isSome = true →
      sniffTag convertSubLists intCols noConvert i v = ColTag.tFloat) ∧
    (pyFloat? v = none → convertSubLists = true → '\x7b' ∈ v.toList →
      sniffTag convertSubLists intCols noConvert i v = ColTag.tSub (pySplitSep "," v).length) ∧
    (pyFloat? v = none → ¬(convertSubLists = true ∧ '\x7b' ∈ v.toList) →
      sniffTag convertSubLists intCols noConvert i v = ColTag.tVerbatim ∧
      materializeColumn ColTag.tVerbatim blankVal col = Except.ok (Column.strs col)) := by
  refine ⟨?_, ?_, ?_⟩
  · intro hs
    cases hv : pyFloat? v with
    | none => rw [hv] at hs; simp at hs
    | some q => simp [sniffTag, hInt, hNc, hv]
  · intro hv hc hb
    have hb2 : '\x7b' ∈ v.data := hb
    simp [sniffTag, hInt, hNc, hv, hc, hb2]
  · intro hv hcb
    refine ⟨?_, rfl⟩
    simp only [sniffTag, hv]
    rw [if_neg (by simpa using hInt), if_neg (by simpa using hNc)]
    rw [if_neg (by simpa using hcb)]

/-- Witness for C3 (amended) at concrete inputs, one per case. -/
theorem sniffTag_c3_amended_witness :
    sniffTag true [] [] 0 "2.5" = ColTag.tFloat ∧
    sniffTag true [] [] 0 "\x7b3,4,5\x7d" = ColTag.tSub 3 ∧
    sniffTag false [] [] 0 "abc" = ColTag.tVerbatim := by
  refine ⟨?_, ?_, ?_⟩
  · exact (sniffTag_c3_amended true [] [] 0 "2.5" 0 [] (by decide) (by decide)).1
      (by with_unfolding_all decide)
  · exact ((sniffTag_c3_amended true [] [] 0 "\x7b3,4,5\x7d" 0 [] (by decide) (by decide)).2.1
      (by with_unfolding_all decide) rfl (by decide)).trans (by decide)
  · exact (((sniffTag_c3_amended false [] [] 0 "abc" 0 [] (by decide) (by decide)).2.2
      (by with_unfolding_all decide) (by simp))).1

/-! ### C1: the no-expansion composite read scenario -/

/-- Counterexample to C1 as stated: on the two scenario lines with default
integer designations, column 0 is materialized as the float array with
values 1 and 2 — not as an integer array. -/
theorem readText_c1_counterexample :
    ReadCompositeTableFromText ["1 2.5 \x7b3,4,5\x7d", "2 3.5 \x7b6,7,8\x7d"] "#" none [] [] 0
      true false none none =
      Except.ok ⟨[Column.floats [1, 2], Column.floats [5/2, 7/2],
        Column.subs [[3, 6], [4, 7], [5, 8]]], none⟩ ∧
    Column.floats [1, 2] ≠ Column.ints [1, 2] := by
  with_unfolding_all decide

/-- C1 (amended): the scenario read yields column 0 as the float array
[1.0, 2.0] (integer-valued floats, since no integer designation is supplied),
column 1 as the float array [2.5, 3.5], and column 2 as the 3-element list of
sub-arrays [[3,6],[4,7],[5,8]]. -/
theorem readText_c1_amended :
    ReadCompositeTableFromText ["1 2.5 \x7b3,4,5\x7d", "2 3.5 \x7b6,7,8\x7d"] "#" none [] [] 0
      true false none none =
      Except.ok ⟨[Column.floats [1, 2], Column.floats [5/2, 7/2],
        Column.subs [[3, 6], [4, 7], [5, 8]]], none⟩ := by
  with_unfolding_all decide

/-! ### C9: the ListDataFrame constructor on degenerate input -/

/-- C9: constructing from the empty list raises `IndexError` (the unguarded
element-0 access), not the documented input-shape `TypeError`; the
input-shape `TypeError` is raised exactly for a non-list argument or a
non-empty list whose first element is neither a list nor a NumPy array. -/
theorem listDataFrame_init_c9 :
    (∀ (columnNames : Option (List String)),
      ListDataFrame.init (InitArg.isList []) columnNames = Except.error PyErr.indexError) ∧
    (∀ (arg : InitArg) (columnNames : Option (List String)),
      ListDataFrame.init arg columnNames = Except.error (PyErr.typeError error1) ↔
        (arg = InitArg.notList ∨ ∃ rest, arg = InitArg.isList (Cell.other :: rest))) := by
  constructor
  · intro columnNames
    rfl
  · intro arg columnNames
    cases arg with
    | notList => simp [ListDataFrame.init]
    | isList ds =>
      cases ds with
      | nil => simp [ListDataFrame.init]
      | cons d0 rest =>
        cases d0 with
        | other => simp [ListDataFrame.init]
        | seq c =>
          cases columnNames with
          | none => simp [ListDataFrame.init]
          | some ns => simp [ListDataFrame.init]

/-- Witness for C9 at concrete inputs: the empty-list `IndexError` and the
`TypeError` equivalence applied in both directions. -/
theorem listDataFrame_init_c9_witness :
    ListDataFrame.init (InitArg.isList []) none = Except.error PyErr.indexError ∧
    ListDataFrame.init InitArg.notList none = Except.error (PyErr.typeError error1) := by
  constructor
  · exact listDataFrame_init_c9.1 none
  · exact (listDataFrame_init_c9.2 InitArg.notList none).mpr (Or.inl rfl)

/-! ### C2: the sub-list expansion loop -/

/-- Element access just past a prefix. -/
lemma getD_at_append {α : Type} (pre : List α) (x : α) (rest : List α) (d : α) :
    (pre ++ x :: rest).getD pre.length d = x := by
  induction pre with
  | nil => rfl
  | cons a as ih => simpa using ih

/-- Splicing at the position just past a prefix replaces the head of the
suffix. -/
lemma spliceAt_append {α : Type} (pre : List α) (x : α) (rest items : List α) :
    spliceAt (pre ++ x :: rest) pre.length items = pre ++ items ++ rest := by
  unfold spliceAt
  induction pre with
  | nil => simp
  | cons a as ih =>
    simp only [List.cons_append, List.length_cons, List.take_succ_cons, List.drop_succ_cons]
    simp only [List.cons_append] at ih
    rw [ih]

/-- A successful `ExtractSubLists` returns exactly `nSubLists` arrays. -/
lemma ExtractSubLists_ok_length (textList : List String) (n : Nat)
    (subs : List (List ℚ)) (h : ExtractSubLists textList n = Except.ok subs) :
    subs.length = n := by
  unfold ExtractSubLists at h
  cases hm : textList.mapM (parseSubChunk n) with
  | error e => rw [hm] at h; simp [Except.bind] at h
  | ok rows =>
    rw [hm] at h
    simp at h
    subst h
    simp

/-- A successful `expandGroup` contributes at least one column, given that
every sub-list tag carries a positive size. -/
lemma expandGroup_ok_length (tag : ColTag) (blankVal : ℚ) (col : List String)
    (g : List WorkCol) (h : expandGroup tag blankVal col = Except.ok g)
    (hn : ∀ n, tag = ColTag.tSub n → n ≠ 0) : 1 ≤ g.length := by
  cases tag with
  | tInt =>
    have h2 : (intifyColumn col).map (fun xs => [WorkCol.done (Column.ints xs)]) =
        Except.ok g := h
    cases hi : intifyColumn col with
    | error e => rw [hi] at h2; simp [Except.map] at h2
    | ok xs =>
      rw [hi] at h2
      simp only [Except.map, Except.ok.injEq] at h2
      subst h2
      simp
  | tFloat =>
    have h2 : [WorkCol.done (Column.floats (ColumnToFloats col blankVal))] = g :=
      Except.ok.inj h
    rw [← h2]
    simp
  | tVerbatim =>
    have h2 : [WorkCol.raw col] = g := Except.ok.inj h
    rw [← h2]
    simp
  | tSub n =>
    have h2 : (ExtractSubLists col n).map
        (fun subs => subs.map (fun l => WorkCol.done (Column.floats l))) = Except.ok g := h
    cases he : ExtractSubLists col n with
    | error e => rw [he] at h2; simp [Except.map] at h2
    | ok subs =>
      rw [he] at h2
      simp only [Except.map, Except.ok.injEq] at h2
      subst h2
      have hlen := ExtractSubLists_ok_length col n subs he
      have hn2 := hn n rfl
      simp [hlen]
      omega

/-- The expansion loop, started after an already-processed prefix, computes
exactly the declarative in-place expansion of the remaining columns. The
`pre.length - k` state component is the running added-column count. -/
lemma runExpand_spec (tagOf : Nat → ColTag) (blankVal : ℚ)
    (hn : ∀ i n, tagOf i = ColTag.tSub n → n ≠ 0) :
    ∀ (rest : List (List String)) (k : Nat) (pre : List WorkCol), k ≤ pre.length →
      runExpand tagOf blankVal (List.range' k rest.length)
          (pre ++ rest.map WorkCol.raw, pre.length - k) =
        (expandColumnsSpec tagOf blankVal k rest).map
          (fun gs => (pre ++ gs, (pre.length + gs.length) - (k + rest.length))) := by
  intro rest
  induction rest with
  | nil =>
    intro k pre hk
    simp [runExpand, expandColumnsSpec, Except.map, List.range'_zero]
  | cons col rest2 ih =>
    intro k pre hk
    have hii : k + (pre.length - k) = pre.length := by omega
    rw [List.length_cons, List.range'_succ]
    simp only [List.map_cons, runExpand]
    have hstep : expandStep tagOf blankVal
        (pre ++ WorkCol.raw col :: rest2.map WorkCol.raw, pre.length - k) k
        = (expandGroup (tagOf k) blankVal col).map
            (fun g => (spliceAt (pre ++ WorkCol.raw col :: rest2.map WorkCol.raw) pre.length g,
              (pre.length - k) + g.length - 1)) := by
      unfold expandStep
      dsimp only
      rw [hii, getD_at_append pre (WorkCol.raw col) (rest2.map WorkCol.raw) (WorkCol.raw [])]
      rfl
    rw [hstep]
    cases hg : expandGroup (tagOf k) blankVal col with
    | error e =>
      simp only [Except.map, expandColumnsSpec]
      rw [hg]
    | ok g =>
      have hg1 : 1 ≤ g.length := expandGroup_ok_length (tagOf k) blankVal col g hg
        (fun n h2 => hn k n h2)
      simp only [Except.map]
      rw [spliceAt_append pre (WorkCol.raw col) (rest2.map WorkCol.raw) g]
      have harith : (pre.length - k) + g.length - 1 = (pre ++ g).length - (k + 1) := by
        simp only [List.length_append]
        omega
      rw [harith]
      have hk2 : k + 1 ≤ (pre ++ g).length := by
        simp only [List.length_append]
        omega
      rw [ih (k + 1) (pre ++ g) hk2]
      simp only [expandColumnsSpec]
      rw [hg]
      cases hspec : expandColumnsSpec tagOf blankVal (k + 1) rest2 with
      | error e => simp [Except.map]
      | ok gs =>
        simp only [Except.map, Except.ok.injEq, List.append_assoc, List.length_append,
          Prod.mk.injEq]
        exact ⟨trivial, by omega⟩

/-- C2: the expansion loop with its running added-column offset is exactly
the in-place declarative expansion — each sub-list column, processed in
ascending original-column order, is removed and replaced by its numeric
sub-arrays in order, all other columns keeping their relative order — and on
the two-row scenario with headers a b c and expansion enabled, the reader
produces 5 columns named a, b, c_0, c_1, c_2. -/
theorem runExpand_c2 :
    (∀ (tagOf : Nat → ColTag) (blankVal : ℚ) (rawCols : List (List String)),
      (∀ i n, tagOf i = ColTag.tSub n → n ≠ 0) →
      runExpand tagOf blankVal (List.range rawCols.length) (rawCols.map WorkCol.raw, 0) =
        (expandColumnsSpec tagOf blankVal 0 rawCols).map
          (fun gs => (gs, gs.length - rawCols.length))) ∧
    ReadCompositeTableFromText ["# a b c", "1 2.5 \x7b3,4,5\x7d", "2 3.5 \x7b6,7,8\x7d"] "#" none
      [] [] 0 false true (some 0) none =
      Except.ok ⟨[Column.floats [1, 2], Column.floats [5/2, 7/2], Column.floats [3, 6],
        Column.floats [4, 7], Column.floats [5, 8]],
        some ["a", "b", "c_0", "c_1", "c_2"]⟩ := by
  constructor
  · intro tagOf blankVal rawCols hn
    have h := runExpand_spec tagOf blankVal hn rawCols 0 [] (by simp)
    simpa [List.range_eq_range'] using h
  · with_unfolding_all decide

/-- Witness for C2: the loop-spec equivalence applied at a concrete tagging
function and concrete raw columns (the scenario conjunct is already closed). -/
theorem runExpand_c2_witness :
    runExpand (fun _ => ColTag.tFloat) 0 (List.range 2) ([["1"], ["x"]].map WorkCol.raw, 0) =
      (expandColumnsSpec (fun _ => ColTag.tFloat) 0 0 [["1"], ["x"]]).map
        (fun gs => (gs, gs.length - 2)) :=
  runExpand_c2.1 (fun _ => ColTag.tFloat) 0 [["1"], ["x"]]
    (fun _ _ h => ColTag.noConfusion h)

/-! ### Dictionary lemmas for the name-binding loop -/

/-- Unfolding one step of the binding loop at the top index. -/
lemma bindCols_succ {γ : Type} (d0 : String → Option γ) (colAt : Nat → γ)
    (names : List String) (m : Nat) :
    bindCols d0 colAt (m + 1) names =
      (match names[m]? with
       | none => bindCols d0 colAt m names
       | some nm => fun k => if k = nm then some (colAt m) else bindCols d0 colAt m names k) := by
  unfold bindCols
  rw [List.range_succ, List.foldl_append]
  simp

/-- A name that does not occur among the bound positions keeps its previous
binding. -/
lemma bindCols_not_mem {γ : Type} (d0 : String → Option γ) (colAt : Nat → γ)
    (names : List String) (k : String) :
    ∀ n : Nat, (∀ j, j < n → names[j]? ≠ some k) →
      bindCols d0 colAt n names k = d0 k := by
  intro n
  induction n with
  | zero => intro _; rfl
  | succ m ih =>
    intro h
    rw [bindCols_succ]
    cases hm : names[m]? with
    | none => exact ih (fun j hj => h j (by omega))
    | some nm =>
      have hne : k ≠ nm := by
        intro he
        exact h m (by omega) (by rw [hm, he])
      show (if k = nm then some (colAt m) else bindCols d0 colAt m names k) = d0 k
      rw [if_neg hne]
      exact ih (fun j hj => h j (by omega))

/-- A name whose last bound occurrence is at position `i` ends up bound to
column `i`. -/
lemma bindCols_mem_last {γ : Type} (d0 : String → Option γ) (colAt : Nat → γ)
    (names : List String) (k : String) (i : Nat) :
    ∀ n : Nat, i < n → names[i]? = some k → (∀ j, i < j → j < n → names[j]? ≠ some k) →
      bindCols d0 colAt n names k = some (colAt i) := by
  intro n
  induction n with
  | zero => intro h; omega
  | succ m ih =>
    intro hin hi hlast
    rw [bindCols_succ]
    by_cases him : i = m
    · subst him
      rw [hi]
      show (if k = k then some (colAt i) else bindCols d0 colAt i names k) = some (colAt i)
      rw [if_pos rfl]
    · have him2 : i < m := by omega
      cases hm : names[m]? with
      | none => exact ih him2 hi (fun j hj1 hj2 => hlast j hj1 (by omega))
      | some nm =>
        have hne : k ≠ nm := by
          intro he
          exact hlast m (by omega) (by omega) (by rw [hm, he])
        show (if k = nm then some (colAt m) else bindCols d0 colAt m names k) = some (colAt i)
        rw [if_neg hne]
        exact ih him2 hi (fun j hj1 hj2 => hlast j hj1 (by omega))

/-- In a duplicate-free name list, a name bound at position `i` occurs
nowhere else. -/
lemma nodup_unique_pos {α : Type} (ns : List α) (h : ns.Nodup) (i j : Nat) (x : α)
    (hi : ns[i]? = some x) (hij : i ≠ j) : ns[j]? ≠ some x := by
  intro hj
  have hilen : i < ns.length := by
    by_contra hc
    rw [List.getElem?_eq_none_iff.mpr (by omega)] at hi
    exact Option.noConfusion hi
  exact hij (List.getElem?_inj hilen h (hi.trans hj.symm))

/-! ### C7: SetAltColumns -/

/-- Counterexample to C7 as stated: with columns c0 = [1], c1 = [2] named
a, b, a second name set b, c rebinds the previously bound name b from column
1 to column 0 — the prior binding of b no longer maps to the same column. -/
theorem SetAltColumns_c7_counterexample :
    ((ListDataFrame.mk [Cell.seq (Column.ints [1]), Cell.seq (Column.ints [2])] none
        emptyDict).SetColumns ["a", "b"]).dict "b" = some (Cell.seq (Column.ints [2])) ∧
    (((ListDataFrame.mk [Cell.seq (Column.ints [1]), Cell.seq (Column.ints [2])] none
        emptyDict).SetColumns ["a", "b"]).SetAltColumns ["b", "c"]).dict "b" =
      some (Cell.seq (Column.ints [1])) ∧
    Cell.seq (Column.ints [2]) ≠ Cell.seq (Column.ints [1]) := by
  refine ⟨rfl, rfl, by decide⟩

/-- C7 (amended): for both DataFrame variants, `SetAltColumns` preserves
every binding whose name does not occur among the newly bound positions, and
binds each supplied name positionally to its column (in a duplicate-free
name list); trailing columns without a supplied name, and trailing names
without a column, are silently skipped (they affect no binding). A supplied
name that collides with a previously bound name overwrites that binding. -/
theorem SetAltColumns_c7_amended :
    (∀ (df : ListDataFrame) (names : List String) (k : String),
      ((∀ j, j < df.data.length → names[j]? ≠ some k) →
        (df.SetAltColumns names).dict k = df.dict k) ∧
      (names.Nodup → ∀ i, i < df.data.length → names[i]? = some k →
        (df.SetAltColumns names).dict k = some (df.colAt i))) ∧
    (∀ (df : ArrayDataFrame) (names : List String) (k : String),
      ((∀ j, j < df.nCols → names[j]? ≠ some k) →
        (df.SetAltColumns names).dict k = df.dict k) ∧
      (names.Nodup → ∀ i, i < df.nCols → names[i]? = some k →
        (df.SetAltColumns names).dict k = some (df.colAt i))) := by
  constructor
  · intro df names k
    constructor
    · intro h
      exact bindCols_not_mem df.dict df.colAt names k df.data.length h
    · intro hnd i hi hik
      exact bindCols_mem_last df.dict df.colAt names k i df.data.length hi hik
        (fun j hj1 hj2 => nodup_unique_pos names hnd i j k hik (by omega))
  · intro df names k
    constructor
    · intro h
      exact bindCols_not_mem df.dict df.colAt names k df.nCols h
    · intro hnd i hi hik
      exact bindCols_mem_last df.dict df.colAt names k i df.nCols hi hik
        (fun j hj1 hj2 => nodup_unique_pos names hnd i j k hik (by omega))

/-- Witness for C7 (amended): a preserved binding and a new positional
binding on concrete frames of both variants. -/
theorem SetAltColumns_c7_amended_witness :
    (((ListDataFrame.mk [Cell.seq (Column.ints [1])] none emptyDict).SetColumns
        ["a"]).SetAltColumns ["b"]).dict "b" =
      some (Cell.seq (Column.ints [1])) ∧
    ((ArrayDataFrame.mk [[3]] 1 none emptyDict).SetAltColumns ["c"]).dict "zz" = none := by
  constructor
  · exact ((SetAltColumns_c7_amended.1
      ((ListDataFrame.mk [Cell.seq (Column.ints [1])] none emptyDict).SetColumns ["a"])
      ["b"] "b").2 (by decide) 0 (by decide) rfl).trans rfl
  · exact ((SetAltColumns_c7_amended.2
      (ArrayDataFrame.mk [[3]] 1 none emptyDict) ["c"] "zz").1
      (by decide)).trans rfl

/-! ### C5: ChangeColumnName -/

/-- `renameFirst` replaces exactly the (unique, in a duplicate-free list)
occurrence of the old name and leaves every other position unchanged. -/
lemma renameFirst_get (oldName newName : String) :
    ∀ (ns : List String) (i : Nat), ns.Nodup → ns[i]? = some oldName →
      ∀ j : Nat, (renameFirst ns oldName newName)[j]? =
        if j = i then some newName else ns[j]? := by
  intro ns
  induction ns with
  | nil =>
    intro i _ hi j
    rw [List.getElem?_nil] at hi
    exact Option.noConfusion hi
  | cons a as ih =>
    intro i hnd hi j
    rw [List.nodup_cons] at hnd
    by_cases ha : a = oldName
    · have hi0 : i = 0 := by
        cases i with
        | zero => rfl
        | succ i2 =>
          rw [List.getElem?_cons_succ] at hi
          exact absurd (ha ▸ List.getElem?_mem hi) hnd.1
      subst hi0
      simp only [renameFirst, if_pos ha]
      cases j with
      | zero => simp
      | succ j2 => simp
    · cases i with
      | zero =>
        rw [List.getElem?_cons_zero] at hi
        exact absurd (Option.some.inj hi) ha
      | succ i2 =>
        rw [List.getElem?_cons_succ] at hi
        have ihj := ih i2 hnd.2 hi
        simp only [renameFirst, if_neg ha]
        cases j with
        | zero => simp
        | succ j2 =>
          rw [List.getElem?_cons_succ, List.getElem?_cons_succ, ihj j2]
          by_cases hj : j2 = i2
          · rw [if_pos hj, if_pos (by omega)]
          · rw [if_neg hj, if_neg (by omega)]

/-- The three dictionary facts behind a rename: after rebinding with the
renamed list, the new name is bound to the column at the old name's position,
the old name's binding before the rename was that same column, and the old
name is unbound afterwards. -/
lemma rename_dict_facts {γ : Type} (colAt : Nat → γ) (n : Nat) (ns : List String)
    (oldName newName : String) (i : Nat) (hnd : ns.Nodup) (hnew : newName ∉ ns)
    (hi : ns[i]? = some oldName) (hin : i < n) :
    bindCols emptyDict colAt n (renameFirst ns oldName newName) newName = some (colAt i) ∧
    bindCols emptyDict colAt n ns oldName = some (colAt i) ∧
    bindCols emptyDict colAt n (renameFirst ns oldName newName) oldName = none := by
  have hold_mem : oldName ∈ ns := List.getElem?_mem hi
  have hne : newName ≠ oldName := fun he => hnew (he ▸ hold_mem)
  have hrg := renameFirst_get oldName newName ns i hnd hi
  refine ⟨?_, ?_, ?_⟩
  · apply bindCols_mem_last emptyDict colAt _ newName i n hin (by rw [hrg i]; simp)
    intro j hj1 hj2 hcon
    rw [hrg j, if_neg (by omega)] at hcon
    exact hnew (List.getElem?_mem hcon)
  · exact bindCols_mem_last emptyDict colAt ns oldName i n hin hi
      (fun j hj1 hj2 => nodup_unique_pos ns hnd i j oldName hi (by omega))
  · refine (bindCols_not_mem emptyDict colAt _ oldName n ?_).trans rfl
    intro j hj hcon
    rw [hrg j] at hcon
    by_cases hji : j = i
    · rw [if_pos hji] at hcon
      exact hne (Option.some.inj hcon)
    · rw [if_neg hji] at hcon
      exact absurd hcon (nodup_unique_pos ns hnd i j oldName hi (fun he => hji he.symm))

/-- Counterexample to C5 as stated: on an `ArrayDataFrame` the rename
rebuilds the dictionary but `SetColumns` never stores the renamed list, so
the visible name list still shows the old name — the new name does not
occupy the old name's position there. -/
theorem ChangeColumnName_c5_counterexample :
    ((ArrayDataFrame.SetColumns (ArrayDataFrame.mk [[1], [2]] 1 (some ["a"]) emptyDict)
        ["a"]).ChangeColumnName "a" "b").map ArrayDataFrame.colNames =
      Except.ok (some ["a"]) ∧
    (some ["a"] : Option (List String)) ≠ some ["b"] := by
  exact ⟨rfl, by decide⟩

/-- C5 (amended): for both variants, on a frame whose names were set from a
duplicate-free list containing the old name (at position `i` among the
columns) and not containing the fresh new name, `ChangeColumnName` succeeds;
afterwards lookup under the new name returns exactly the column that lookup
under the old name returned before, lookup under the old name fails, and the
renamed list carries the new name at the old name's position, all other
positions unchanged. The list-backed frame stores the renamed list as its
visible name list; the array-backed frame's `SetColumns` never stores it, so
its visible name list is left unchanged (stale). A missing old name raises a
`KeyError` in both variants. -/
theorem ChangeColumnName_c5_amended :
    (∀ (df0 : ListDataFrame) (ns : List String) (oldName newName : String) (i : Nat),
      ns.Nodup → newName ∉ ns → ns[i]? = some oldName → i < df0.data.length →
      (df0.SetColumns ns).ChangeColumnName oldName newName =
          Except.ok ((df0.SetColumns ns).SetColumns (renameFirst ns oldName newName)) ∧
        ((df0.SetColumns ns).SetColumns (renameFirst ns oldName newName)).dict newName =
          (df0.SetColumns ns).dict oldName ∧
        ((df0.SetColumns ns).SetColumns (renameFirst ns oldName newName)).dict newName =
          some (df0.colAt i) ∧
        ((df0.SetColumns ns).SetColumns (renameFirst ns oldName newName)).dict oldName = none ∧
        ((df0.SetColumns ns).SetColumns (renameFirst ns oldName newName)).colNames =
          some (renameFirst ns oldName newName) ∧
        (renameFirst ns oldName newName)[i]? = some newName ∧
        (∀ j, j ≠ i → (renameFirst ns oldName newName)[j]? = ns[j]?)) ∧
    (∀ (df0 : ListDataFrame) (ns : List String) (oldName newName : String),
      oldName ∉ ns →
      (df0.SetColumns ns).ChangeColumnName oldName newName =
        Except.error (PyErr.keyError ("Column name \"" ++ oldName ++ "\" does not exist."))) ∧
    (∀ (rows : List (List ℚ)) (nC : Nat) (d00 : String → Option (List ℚ))
       (ns : List String) (oldName newName : String) (i : Nat),
      ns.Nodup → newName ∉ ns → ns[i]? = some oldName → i < nC →
      ((ArrayDataFrame.mk rows nC (some ns) d00).SetColumns ns).ChangeColumnName
          oldName newName =
          Except.ok (((ArrayDataFrame.mk rows nC (some ns) d00).SetColumns ns).SetColumns
            (renameFirst ns oldName newName)) ∧
        (((ArrayDataFrame.mk rows nC (some ns) d00).SetColumns ns).SetColumns
            (renameFirst ns oldName newName)).dict newName =
          ((ArrayDataFrame.mk rows nC (some ns) d00).SetColumns ns).dict oldName ∧
        (((ArrayDataFrame.mk rows nC (some ns) d00).SetColumns ns).SetColumns
            (renameFirst ns oldName newName)).dict oldName = none ∧
        (((ArrayDataFrame.mk rows nC (some ns) d00).SetColumns ns).SetColumns
            (renameFirst ns oldName newName)).colNames = some ns) ∧
    (∀ (rows : List (List ℚ)) (nC : Nat) (d00 : String → Option (List ℚ))
       (ns : List String) (oldName newName : String),
      oldName ∉ ns →
      ((ArrayDataFrame.mk rows nC (some ns) d00).SetColumns ns).ChangeColumnName
          oldName newName =
        Except.error (PyErr.keyError ("Column name \"" ++ oldName ++ "\" does not exist."))) := by
  refine ⟨?_, ?_, ?_, ?_⟩
  · intro df0 ns oldName newName i hnd hnew hi hin
    have hmem : oldName ∈ ns := List.getElem?_mem hi
    have hc : ns.contains oldName = true := by simpa using hmem
    obtain ⟨f1, f2, f3⟩ := rename_dict_facts df0.colAt df0.data.length ns oldName newName
      i hnd hnew hi hin
    have hrg := renameFirst_get oldName newName ns i hnd hi
    refine ⟨?_, f1.trans f2.symm, f1, f3, rfl, by rw [hrg i]; simp,
      fun j hj => by rw [hrg j, if_neg hj]⟩
    simp only [ListDataFrame.ChangeColumnName, ListDataFrame.SetColumns]
    rw [if_pos hc]
  · intro df0 ns oldName newName hmem
    have hc : ns.contains oldName = false := by simpa using hmem
    simp only [ListDataFrame.ChangeColumnName, ListDataFrame.SetColumns]
    rw [if_neg (by simp [hc]; exact hmem)]
  · intro rows nC d00 ns oldName newName i hnd hnew hi hin
    have hmem : oldName ∈ ns := List.getElem?_mem hi
    have hc : ns.contains oldName = true := by simpa using hmem
    obtain ⟨f1, f2, f3⟩ := rename_dict_facts
      (ArrayDataFrame.mk rows nC (some ns) d00).colAt nC ns oldName newName i hnd hnew hi hin
    refine ⟨?_, f1.trans f2.symm, f3, rfl⟩
    simp only [ArrayDataFrame.ChangeColumnName, ArrayDataFrame.SetColumns]
    rw [if_pos hc]
  · intro rows nC d00 ns oldName newName hmem
    have hc : ns.contains oldName = false := by simpa using hmem
    simp only [ArrayDataFrame.ChangeColumnName, ArrayDataFrame.SetColumns]
    rw [if_neg (by simp [hc]; exact hmem)]

/-- Witness for C5 (amended) on a concrete list-backed frame: after renaming
a to b, lookup under b yields the single column and lookup under a fails. -/
theorem ChangeColumnName_c5_amended_witness :
    (((ListDataFrame.mk [Cell.seq (Column.ints [5])] none emptyDict).SetColumns
        ["a"]).SetColumns (renameFirst ["a"] "a" "b")).dict "b" =
      some (Cell.seq (Column.ints [5])) ∧
    (((ListDataFrame.mk [Cell.seq (Column.ints [5])] none emptyDict).SetColumns
        ["a"]).SetColumns (renameFirst ["a"] "a" "b")).dict "a" = none := by
  have h := ChangeColumnName_c5_amended.1
    (ListDataFrame.mk [Cell.seq (Column.ints [5])] none emptyDict) ["a"] "a" "b" 0
    (by decide) (by decide) rfl (by decide)
  exact ⟨h.2.2.1.trans rfl, h.2.2.2.1⟩

/-! ### C6: AddNewColumn -/

/-- C6: a non-list/array argument fails with the container `TypeError`, a
length mismatch fails with the mismatch error, and both error returns leave
the frame component unchanged (the append never ran); a successful call
appends the column — the column count grows by one — and, when a name is
supplied and names already exist, re-runs the full name binding with the new
name appended. -/
theorem AddNewColumn_c6 :
    (∀ (df : ListDataFrame) (columnName : Option String),
      df.AddNewColumn Cell.other columnName = (df, some (PyErr.typeError error1))) ∧
    (∀ (df : ListDataFrame) (c c0 : Column) (rest : List Cell) (columnName : Option String),
      df.data = Cell.seq c0 :: rest → c.pyLen ≠ c0.pyLen →
      df.AddNewColumn (Cell.seq c) columnName = (df, some (PyErr.typeError error2))) ∧
    (∀ (df : ListDataFrame) (c c0 : Column) (rest : List Cell) (columnName : Option String),
      df.data = Cell.seq c0 :: rest → c.pyLen = c0.pyLen →
      (df.AddNewColumn (Cell.seq c) columnName).2 = none ∧
      (df.AddNewColumn (Cell.seq c) columnName).1.data = df.data ++ [Cell.seq c] ∧
      (df.AddNewColumn (Cell.seq c) columnName).1.data.length = df.data.length + 1 ∧
      (∀ nm ns, columnName = some nm → df.colNames = some ns →
        df.AddNewColumn (Cell.seq c) columnName =
          (ListDataFrame.SetColumns { df with data := df.data ++ [Cell.seq c] } (ns ++ [nm]),
            none))) := by
  refine ⟨?_, ?_, ?_⟩
  · intro df columnName
    rfl
  · intro df c c0 rest columnName hdata hne
    obtain ⟨ddata, dnames, ddict⟩ := df
    simp only at hdata
    subst hdata
    simp only [ListDataFrame.AddNewColumn]
    rw [if_pos hne]
  · intro df c c0 rest columnName hdata heq
    obtain ⟨ddata, dnames, ddict⟩ := df
    simp only at hdata
    subst hdata
    simp only [ListDataFrame.AddNewColumn]
    rw [if_neg (by simp [heq])]
    cases columnName with
    | none =>
      cases dnames with
      | none => exact ⟨rfl, rfl, by simp, fun nm ns h1 _ => Option.noConfusion h1⟩
      | some ns0 => exact ⟨rfl, rfl, by simp, fun nm ns h1 _ => Option.noConfusion h1⟩
    | some nm0 =>
      cases dnames with
      | none =>
        exact ⟨rfl, rfl, by simp, fun nm ns _ h2 => Option.noConfusion h2⟩
      | some ns0 =>
        refine ⟨rfl, rfl, by simp [ListDataFrame.SetColumns], ?_⟩
        intro nm ns h1 h2
        rw [Option.some.inj h1, Option.some.inj h2]

/-- Witness for C6 on a concrete two-row single-column frame: the container
type error, the length-mismatch error (frame unchanged in both), and a
successful append. -/
theorem AddNewColumn_c6_witness :
    (ListDataFrame.mk [Cell.seq (Column.ints [1, 2])] (some ["a"])
        emptyDict).AddNewColumn Cell.other none =
      (ListDataFrame.mk [Cell.seq (Column.ints [1, 2])] (some ["a"]) emptyDict,
        some (PyErr.typeError error1)) ∧
    (ListDataFrame.mk [Cell.seq (Column.ints [1, 2])] (some ["a"])
        emptyDict).AddNewColumn (Cell.seq (Column.ints [7])) none =
      (ListDataFrame.mk [Cell.seq (Column.ints [1, 2])] (some ["a"]) emptyDict,
        some (PyErr.typeError error2)) ∧
    ((ListDataFrame.mk [Cell.seq (Column.ints [1, 2])] (some ["a"])
        emptyDict).AddNewColumn (Cell.seq (Column.ints [3, 4])) none).2 = none := by
  refine ⟨?_, ?_, ?_⟩
  · exact AddNewColumn_c6.1
      (ListDataFrame.mk [Cell.seq (Column.ints [1, 2])] (some ["a"]) emptyDict) none
  · exact AddNewColumn_c6.2.1
      (ListDataFrame.mk [Cell.seq (Column.ints [1, 2])] (some ["a"]) emptyDict)
      (Column.ints [7]) (Column.ints [1, 2]) [] none rfl (by decide)
  · exact (AddNewColumn_c6.2.2
      (ListDataFrame.mk [Cell.seq (Column.ints [1, 2])] (some ["a"]) emptyDict)
      (Column.ints [3, 4]) (Column.ints [1, 2]) [] none rfl (by decide)).1

/-! ### C8: header extraction -/

/-- Splitting a successful `Except` bind. -/
lemma except_bind_ok {ε α β : Type} (x : Except ε α) (f : α → Except ε β) (b : β)
    (h : (x >>= f) = Except.ok b) : ∃ a, x = Except.ok a ∧ f a = Except.ok b := by
  cases x with
  | error e => exact absurd h (by simp [Bind.bind, Except.bind])
  | ok a => exact ⟨a, rfl, h⟩

/-- Without expansion the names step is the identity. -/
lemma coreNames_noexpand (subListCols subListLengthList : List Nat)
    (subListSuffixes : Option (List String)) (colNames0 : Option (List String)) :
    coreNames false subListCols subListLengthList subListSuffixes colNames0 =
      Except.ok colNames0 := by
  cases colNames0 with
  | none => rfl
  | some ns => simp [coreNames]

/-- Without sub-list expansion, the reader core passes the extracted header
names through unchanged into the result. -/
lemma readCompositeCore_names (delim : Option String) (noConvert intCols : List Nat)
    (blankVal : ℚ) (convertSL : Bool) (subListSuffixes : Option (List String))
    (dlines : List String) (colNames0 : Option (List String)) (res : ReadResult)
    (h : readCompositeCore delim noConvert intCols blankVal convertSL false subListSuffixes
      dlines colNames0 = Except.ok res) : res.names = colNames0 := by
  cases dlines with
  | nil => exact absurd h (by simp [readCompositeCore])
  | cons d0 ds =>
    unfold readCompositeCore at h
    obtain ⟨rows, h1, h⟩ := except_bind_ok _ _ _ h
    obtain ⟨cols, h2, h⟩ := except_bind_ok _ _ _ h
    obtain ⟨names2, h3, h4⟩ := except_bind_ok _ _ _ h
    have hn2 : Except.ok colNames0 = Except.ok names2 :=
      (coreNames_noexpand _ _ _ colNames0).symm.trans h3
    have h5 : res = ⟨cols, names2⟩ := (Except.ok.inj h4).symm
    rw [h5, ← Except.ok.inj hn2]

/-- Counterexample to C8 as stated: with skip marker configured as `!`, the
file-based reader still strips only the literal `#` from the header line, so
the leading `!` remains in the first header name; the in-memory-text reader
strips the configured set. -/
theorem header_c8_counterexample :
    ReadCompositeTable ["!a b", "1 2"] "!" none [] [] 0 false false (some 0) none =
      Except.ok ⟨[Column.floats [1], Column.floats [2]], some ["!a", "b"]⟩ ∧
    ReadCompositeTableFromText ["!a b", "1 2"] "!" none [] [] 0 false false (some 0) none =
      Except.ok ⟨[Column.floats [1], Column.floats [2]], some ["a", "b"]⟩ ∧
    (some ["!a", "b"] : Option (List String)) ≠ some ["a", "b"] := by
  refine ⟨?_, ?_, by decide⟩ <;> with_unfolding_all decide

/-- C8 (amended): both readers count a designated header row index against
the original (unfiltered) line sequence and read that line independently of
the data-line filtering; the in-memory-text reader strips the configured
skip characters from both ends of it before splitting it into names, while
the file-based reader strips the literal character `#` regardless of the
configured skip set (and, reading the raw line, its trailing newline shields
trailing markers). Stated for reads without sub-list expansion, where the
header names reach the result unchanged. -/
theorem header_c8_amended :
    (∀ (textLines : List String) (skip : String) (delim : Option String)
       (noConvert intCols : List Nat) (blankVal : ℚ) (convertSubLists : Bool)
       (r : Nat) (subListSuffixes : Option (List String)) (res : ReadResult),
      r < textLines.length →
      ReadCompositeTableFromText textLines skip delim noConvert intCols blankVal
        convertSubLists false (some r) subListSuffixes = Except.ok res →
      res.names = some (headerNamesText skip delim (textLines.getD r ""))) ∧
    (∀ (fileLines : List String) (skip : String) (delim : Option String)
       (noConvert intCols : List Nat) (blankVal : ℚ) (convertSubLists : Bool)
       (r : Nat) (subListSuffixes : Option (List String)) (res : ReadResult),
      r < fileLines.length →
      ReadCompositeTable fileLines skip delim noConvert intCols blankVal
        convertSubLists false (some r) subListSuffixes = Except.ok res →
      res.names = some (headerNamesFile delim (fileLines.getD r ""))) := by
  constructor
  · intro textLines skip delim noConvert intCols blankVal csl r sfx res hr h
    unfold ReadCompositeTableFromText at h
    dsimp only at h
    rw [if_pos hr] at h
    exact readCompositeCore_names _ _ _ _ _ _ _ _ _ h
  · intro fileLines skip delim noConvert intCols blankVal csl r sfx res hr h
    unfold ReadCompositeTable at h
    dsimp only at h
    rw [if_pos hr] at h
    exact readCompositeCore_names _ _ _ _ _ _ _ _ _ h

/-- Witness for C8 (amended): both readers applied to a one-line table whose
own line serves as the (unfiltered) header row. -/
theorem header_c8_amended_witness :
    (ReadResult.mk [Column.floats [1], Column.floats [2]] (some ["1", "2"])).names =
      some (headerNamesText "#" none (["1 2"].getD 0 "")) ∧
    (ReadResult.mk [Column.floats [1], Column.floats [2]] (some ["1", "2"])).names =
      some (headerNamesFile none (["1 2"].getD 0 "")) := by
  constructor
  · exact header_c8_amended.1 ["1 2"] "#" none [] [] 0 false 0 none
      (ReadResult.mk [Column.floats [1], Column.floats [2]] (some ["1", "2"]))
      (by decide) (by with_unfolding_all decide)
  · exact header_c8_amended.2 ["1 2"] "#" none [] [] 0 false 0 none
      (ReadResult.mk [Column.floats [1], Column.floats [2]] (some ["1", "2"]))
      (by decide) (by with_unfolding_all decide)
